import Mathlib

/-!
Shallow embedding of `src/src/lip_sync.rs` (crate `rlip-sync`, struct `LipSync`).

Conventions of the embedding:
* `f64` values are modelled as exact rationals (`ℚ`); floating-point rounding is
  abstracted to exact arithmetic.  The one transcendental operation the embedded
  code uses, `f64::log10`, is passed in as an explicit function argument
  (`log10 : ℚ → ℚ`) so that every definition stays executable; theorems that do
  not depend on the value of the logarithm quantify over it.
* `i64` indices are modelled as `ℤ`; `Vec<f64>` as `List ℚ`.
* A Rust operation that can panic (out-of-bounds indexing, `copy_from_slice`
  with mismatched lengths) is embedded as an `Option`-returning function where
  the panic is reachable; `none` models the panic.
* `Profile`, `LipSyncJobResult` and `LipSyncInfo` live in crate modules that are
  not part of the provided sources; their fields are taken from the uses in
  `lip_sync.rs` and, where a behaviour is needed, modelled from the spec (each
  such definition carries a doc comment starting `Modelled from the spec:`).
-/

/-- Result record produced by one analysis job (`LipSyncJobResult` in
`lip_sync_job.rs`, fields as read by `LipSync::update_result`). -/
structure LipSyncJobResult where
  index : ℤ
  volume : ℚ
  distance : ℚ
deriving Repr, DecidableEq

/-- Published per-cycle result (`LipSyncInfo` in `common.rs`, fields as written
by `LipSync::update_result` and read by `LipSync::result`). -/
structure LipSyncInfo where
  index : ℤ
  phoneme : String
  volume : ℚ
  raw_volume : ℚ
  distance : ℚ
deriving Repr, DecidableEq

/-- Per-vowel calibration entry: the reference MFCC vector
(`mfcc_native_array` is the only field `lip_sync.rs` reads). -/
structure MfccCalibrationData where
  mfcc_native_array : List ℚ
deriving Repr, DecidableEq

/-- The calibration profile (`Profile` in `profile.rs`): fields as used by
`lip_sync.rs` and described by the spec data model (§3): per-vowel reference
MFCC vectors, log-scale min/max volume, target sample rate, base window sample
count, mel filter-bank channel count. -/
structure Profile where
  mfccs : List MfccCalibrationData
  min_volume : ℚ
  max_volume : ℚ
  target_sample_rate : ℤ
  sample_count : ℤ
  mel_filter_bank_channels : ℤ
deriving Repr, DecidableEq

/-- Rust `value as usize` on an `i64`, i.e. two's-complement reinterpretation
into an unsigned 64-bit integer. -/
def usizeOfI64 (i : ℤ) : ℕ :=
  (i % (2 ^ 64)).toNat

/-- Modelled from the spec: `Profile::update_mfcc(vowel_index, sample_mfcc,
accept)` (`profile.rs` is not among the provided sources).  Spec §4.5: "If
`accept`, set (or exponentially blend toward) the PhonemeProfile at
`vowel_index`'s reference vector using `sample_mfcc`.  Must fail gracefully
(no-op) if `vowel_index` is out of the configured vowel set's range"; §8 fixes
the blend to plain overwrite ("the second's accepted sample determines the
final reference value (last-write-wins)"). -/
def Profile.update_mfcc (p : Profile) (index : ℕ) (sample_mfcc : List ℚ)
    (accept : Bool) : Profile :=
  if accept ∧ index < p.mfccs.length then
    { p with mfccs := p.mfccs.set index ⟨sample_mfcc⟩ }
  else
    p

/-- Modelled from the spec: `Profile::get_phoneme(index)` (`profile.rs` is not
among the provided sources).  Spec §3: each PhonemeProfile carries a label;
`update_result` reads the label of the classified vowel.  Out-of-range lookup
yields the empty label. -/
def Profile.get_phoneme (labels : List String) (index : ℕ) : String :=
  labels.getD index ""

/-- Lines 141-142 of `lip_sync.rs`: the effective maximum volume used as the
normalization ceiling, `self.profile.max_volume.max(min_vol + 1e-4_f64)`. -/
def effective_max_volume (min_vol max_vol : ℚ) : ℚ :=
  max max_vol (min_vol + 1 / 10000)

/-- Lines 140-144 of `lip_sync.rs` after `log10` has been taken: given
`raw_log_vol = job volume .log10()`, compute
`clamp((raw_log_vol - min_vol) / (max_vol_eff - min_vol), 0, 1)`.
Rust `f64::clamp(x, lo, hi)` is `min hi (max lo x)` on exact numbers. -/
def normalized_volume (min_vol max_vol raw_log_vol : ℚ) : ℚ :=
  let max_vol_eff := effective_max_volume min_vol max_vol
  let vol := (raw_log_vol - min_vol) / (max_vol_eff - min_vol)
  min 1 (max 0 vol)

/-- Embeds `LipSync::input_sample_count` (lines 266-270): required ring capacity,
`ceil(sample_count * (mix_rate / target_sample_rate))` as an `i64`. -/
def input_sample_count (mix_rate : ℚ) (p : Profile) : ℤ :=
  ⌈(p.sample_count : ℚ) * (mix_rate / (p.target_sample_rate : ℚ))⌉

/-- The step functions called by `LipSync::_process` (lines 78-89), as labels
recording the order of the calls in the body. -/
inductive ProcessStep where
  | updateResult
  | invokeCallback
  | updateCalibration
  | updatePhonemes
  | scheduleJob
  | updateBuffers
  | updateAudioSource
deriving Repr, DecidableEq

/-- The sequence of step calls in the body of `LipSync::_process`
(lines 81-88, in source order). -/
def processTrace : List ProcessStep :=
  [ProcessStep.updateResult, ProcessStep.invokeCallback,
   ProcessStep.updateCalibration, ProcessStep.updatePhonemes,
   ProcessStep.scheduleJob, ProcessStep.updateBuffers,
   ProcessStep.updateAudioSource]

/-- Position of the first occurrence of a step in a trace. -/
def stepIndex (s : ProcessStep) (t : List ProcessStep) : ℕ :=
  t.indexOf s

/-- Embeds `LipSync::request_calibration` (lines 192-198): a negative index returns
immediately; otherwise the index is pushed onto the request queue. -/
def request_calibration (queue : List ℤ) (index : ℤ) : List ℤ :=
  if index < 0 then queue else queue ++ [index]

/-- Embeds `LipSync::update_calibration` (lines 200-209): each queued index is applied
in queue order via `profile.update_mfcc(*index as usize, self.mfcc.clone(),
true)`, then the queue is cleared. -/
def update_calibration (p : Profile) (mfcc : List ℚ) (queue : List ℤ) :
    Profile × List ℤ :=
  (queue.foldl (fun prof i => prof.update_mfcc (usizeOfI64 i) mfcc true) p, [])

/-- The buffer-valued fields of `LipSync` (lines 24-29), the state touched by
`allocate_buffers` / `dispose_buffers` / `update_buffers`. -/
structure BuffersState where
  raw_input_data : List ℚ
  input_data : List ℚ
  mfcc : List ℚ
  mfcc_for_other : List ℚ
  phonemes : List ℚ
  job_result : List LipSyncJobResult
deriving Repr, DecidableEq

/-- The buffer fields of a freshly constructed `LipSync` (`LipSync::new`,
lines 46-52): every vector starts empty. -/
def initialBuffers : BuffersState :=
  { raw_input_data := [], input_data := [], mfcc := [], mfcc_for_other := [],
    phonemes := [], job_result := [] }

/-- Embeds `LipSync::allocate_buffers` (lines 103-110): every buffer field is
reassigned to a fresh empty vector (`vec![]`). -/
def allocate_buffers (_s : BuffersState) : BuffersState :=
  { raw_input_data := [], input_data := [], mfcc := [], mfcc_for_other := [],
    phonemes := [], job_result := [] }

/-- Embeds `LipSync::dispose_buffers` (lines 112-119): every buffer field is
cleared. -/
def dispose_buffers (_s : BuffersState) : BuffersState :=
  { raw_input_data := [], input_data := [], mfcc := [], mfcc_for_other := [],
    phonemes := [], job_result := [] }

/-- The staleness condition of `LipSync::update_buffers` (lines 122-124):
the freshly computed required sample count differs from the ring length, or
the required phoneme-scratch length (`mfccs.len() * 12`) differs from the
scratch length. -/
def buffers_stale (mix_rate : ℚ) (p : Profile) (s : BuffersState) : Bool :=
  (input_sample_count mix_rate p != (s.raw_input_data.length : ℤ)) ||
    (p.mfccs.length * 12 != s.phonemes.length)

/-- Embeds `LipSync::update_buffers` (lines 121-128): when stale, dispose then
reallocate all buffers. -/
def update_buffers (mix_rate : ℚ) (p : Profile) (s : BuffersState) :
    BuffersState :=
  if buffers_stale mix_rate p s then allocate_buffers (dispose_buffers s)
  else s

/-- Embeds `LipSync::update_result` (lines 130-147), with the two reachable panics
modelled as `none`: `mfcc_for_other.copy_from_slice(&self.mfcc)` panics when
the lengths differ (line 134), and `self.job_result[0]` panics when the result
vector is empty (lines 137-146).  On success, returns the updated
`mfcc_for_other` (a copy of `mfcc`) and the new published `LipSyncInfo`.
`log10` abstracts `f64::log10`; `labels` are the profile's phoneme labels read
through `Profile::get_phoneme`. -/
def update_result (log10 : ℚ → ℚ) (labels : List String) (p : Profile)
    (mfcc mfcc_for_other : List ℚ) (job_result : List LipSyncJobResult) :
    Option (List ℚ × LipSyncInfo) :=
  if mfcc_for_other.length ≠ mfcc.length then none
  else
    match job_result with
    | [] => none
    | jr :: _ =>
      let index := jr.index
      let phoneme := Profile.get_phoneme labels (usizeOfI64 index)
      let distance := jr.distance
      let vol := normalized_volume p.min_volume p.max_volume (log10 jr.volume)
      some (mfcc, { index := index, phoneme := phoneme, volume := vol,
                    raw_volume := jr.volume, distance := distance })

/-- Inner loop of `LipSync::update_phonemes` (lines 159-165): for each value of
one vowel's reference vector, break out of the inner loop when
`index >= phonemes.len()`; otherwise pre-increment `index` and execute
`phonemes[index] = value`, which panics (`none`) when the incremented index is
out of bounds. -/
def update_phonemes_inner (data phonemes : List ℚ) (index : ℕ) :
    Option (List ℚ × ℕ) :=
  match data with
  | [] => some (phonemes, index)
  | v :: rest =>
    if phonemes.length ≤ index then some (phonemes, index)
    else
      let index := index + 1
      if index < phonemes.length then
        update_phonemes_inner rest (phonemes.set index v) index
      else none

/-- Outer loop of `LipSync::update_phonemes` (lines 157-166): iterate over the
per-vowel reference vectors, threading the single running `index` and the
scratch buffer through the inner loop. -/
def update_phonemes_outer (mfccs : List MfccCalibrationData)
    (phonemes : List ℚ) (index : ℕ) : Option (List ℚ) :=
  match mfccs with
  | [] => some phonemes
  | d :: rest =>
    match update_phonemes_inner d.mfcc_native_array phonemes index with
    | none => none
    | some (ph, idx) => update_phonemes_outer rest ph idx

/-- Embeds `LipSync::update_phonemes` (lines 156-167): the per-cycle phoneme-scratch
refresh, starting from `index = 0`. -/
def update_phonemes (mfccs : List MfccCalibrationData) (phonemes : List ℚ) :
    Option (List ℚ) :=
  update_phonemes_outer mfccs phonemes 0

/-- The fields of `LipSync` touched by `on_data_received` (lines 219-240):
the ring buffer, the write cursor and the output gain.  The cursor is an `i64`
in the source but every value it ever holds is non-negative (`0` initially,
thereafter always a `% n` result of a non-negative dividend), so it is
modelled as `ℕ`. -/
structure CaptureState where
  raw_input_data : List ℚ
  index : ℕ
  output_sound_gain : ℚ
deriving Repr, DecidableEq

/-- The write loop of `LipSync::on_data_received` (lines 226-232): while the
sample offset `i` is in range, advance the cursor to `(index + 1) % n`,
overwrite that slot with `input[i]`, and step `i` by `channels`.  A zero
`channels` loops forever in the source; to stay total the embedding stops in
that case (the capture contract requires a stride of at least 1). -/
def capture_loop (raw : List ℚ) (index : ℕ) (input : List ℚ)
    (channels i : ℕ) : List ℚ × ℕ :=
  if h : channels = 0 ∨ input.length ≤ i then (raw, index)
  else
    let index := (index + 1) % raw.length
    capture_loop (raw.set index (input.getD i 0)) index input channels
      (i + channels)
termination_by input.length - i
decreasing_by simp only [not_or, not_le] at h; omega

/-- Embeds `LipSync::on_data_received` (lines 219-240): early return when the ring
buffer is empty; otherwise reduce the cursor mod the capacity, run the strided
write loop from offset 0, and finally scale the input buffer in place by the
output gain when the gain differs from 1 by more than `f64::EPSILON`
(modelled as `2⁻⁵²`).  Returns the new capture state and the (possibly
scaled) input buffer. -/
def on_data_received (s : CaptureState) (input : List ℚ) (channels : ℕ) :
    CaptureState × List ℚ :=
  if s.raw_input_data.length = 0 then (s, input)
  else
    let n := s.raw_input_data.length
    let start := s.index % n
    let out := capture_loop s.raw_input_data start input channels 0
    let scaled :=
      if |s.output_sound_gain - 1| > 1 / 2 ^ 52 then
        input.map (fun x => x * s.output_sound_gain)
      else input
    ({ raw_input_data := out.1, index := out.2,
       output_sound_gain := s.output_sound_gain }, scaled)

/-- Modelled from the spec (§4.1): the samples the capture contract selects,
"every `channel_stride`-th sample starting at offset 0" — here generalized to
start at offset `i` so the selection can follow the loop. -/
def strided_samples (input : List ℚ) (channels i : ℕ) : List ℚ :=
  if h : channels = 0 ∨ input.length ≤ i then []
  else input.getD i 0 :: strided_samples input channels (i + channels)
termination_by input.length - i
decreasing_by simp only [not_or, not_le] at h; omega

/-- Modelled from the spec (§4.1): for one selected sample, "advance the write
cursor `(index+1) mod capacity` and overwrite that slot". -/
def capture_spec_step (p : List ℚ × ℕ) (x : ℚ) : List ℚ × ℕ :=
  let index := (p.2 + 1) % p.1.length
  (p.1.set index x, index)

/-- Modelled from the spec (§4.1): the capture contract as a fold of the
per-sample cursor advance over the selected samples. -/
def capture_spec (raw : List ℚ) (index : ℕ) (samples : List ℚ) :
    List ℚ × ℕ :=
  samples.foldl capture_spec_step (raw, index)

/-- Claim C2: for every profile min/max volume and every value of the raw log
volume (the `log10` of any job volume, amplitude 0 and arbitrarily large
amplitudes included), the normalized volume written into the published result
lies in `[0, 1]`, and the effective maximum volume used as the normalization
ceiling is at least `min_volume + 1e-4`. -/
theorem normalized_volume_in_unit_interval (min_vol max_vol raw_log_vol : ℚ) :
    0 ≤ normalized_volume min_vol max_vol raw_log_vol ∧
    normalized_volume min_vol max_vol raw_log_vol ≤ 1 ∧
    min_vol + 1 / 10000 ≤ effective_max_volume min_vol max_vol := by
  refine ⟨?_, ?_, le_max_right _ _⟩
  · exact le_min zero_le_one (le_max_left 0 _)
  · exact min_le_left _ _

/-- Claim C9: the required ring capacity computed by `input_sample_count`
equals `⌈W0 * Rin / Rtarget⌉` for every host mix rate `Rin`, target rate
`Rtarget` and base window length `W0`. -/
theorem input_sample_count_eq_ceil (mix_rate : ℚ) (p : Profile) :
    input_sample_count mix_rate p =
      ⌈((p.sample_count : ℚ) * mix_rate) / (p.target_sample_rate : ℚ)⌉ := by
  unfold input_sample_count
  rw [mul_div_assoc]

/-- Claim C5 counterexample: in the body of `_process` the resize check
(`update_buffers`) is called after `schedule_job`, not before it as the claim
states. -/
theorem process_resize_after_schedule :
    ¬ stepIndex ProcessStep.updateBuffers processTrace <
        stepIndex ProcessStep.scheduleJob processTrace := by decide

/-- Claim C5 (amended): each tick executes, in order, the result publication
(`update_result` then the consumer notification `invoke_callback`), the
pending-calibration application, the phoneme-scratch refresh, the job
scheduling, and only then the resize check: the resize check happens after
job scheduling within the same cycle. -/
theorem process_step_order :
    stepIndex ProcessStep.updateResult processTrace <
        stepIndex ProcessStep.invokeCallback processTrace ∧
    stepIndex ProcessStep.invokeCallback processTrace <
        stepIndex ProcessStep.updateCalibration processTrace ∧
    stepIndex ProcessStep.updateCalibration processTrace <
        stepIndex ProcessStep.updatePhonemes processTrace ∧
    stepIndex ProcessStep.updatePhonemes processTrace <
        stepIndex ProcessStep.scheduleJob processTrace ∧
    stepIndex ProcessStep.scheduleJob processTrace <
        stepIndex ProcessStep.updateBuffers processTrace := by decide

/-- Claim C1: on a freshly constructed `LipSync` (every buffer empty, no
analysis job completed yet) the first step of the tick, `update_result`,
indexes `job_result[0]` on an empty vector and panics — for every value of
the abstracted `log10`, every label table and every profile.  The tick is
therefore fatal before any job has produced a result, contradicting the
claimed safe default. -/
theorem update_result_panics_initially (log10 : ℚ → ℚ) (labels : List String)
    (p : Profile) :
    update_result log10 labels p initialBuffers.mfcc
      initialBuffers.mfcc_for_other initialBuffers.job_result = none := rfl

/-- A concrete profile for evaluating the resize path: base window 1024
samples, target analysis rate 16000, no calibrated vowels (host mix rate
44100 is supplied at the call sites). -/
def testProfile : Profile :=
  { mfccs := [], min_volume := -4, max_volume := -2,
    target_sample_rate := 16000, sample_count := 1024,
    mel_filter_bank_channels := 12 }

/-- Claim C3: at host mix rate 44100 the freshly computed required capacity is
`⌈1024 * 44100 / 16000⌉ = 2823`, the initial buffers are stale, yet after the
reallocation performed by `update_buffers` the ring buffer is the empty
vector (length 0) instead of a zero-filled vector of length 2823:
`allocate_buffers` reassigns every buffer to `vec![]`. -/
theorem update_buffers_reallocates_to_empty :
    buffers_stale 44100 testProfile initialBuffers = true ∧
    input_sample_count 44100 testProfile = 2823 ∧
    (update_buffers 44100 testProfile initialBuffers).raw_input_data = [] := by
  have hc : input_sample_count 44100 testProfile = 2823 := by
    norm_num [input_sample_count, testProfile]
    rw [Int.ceil_eq_iff]
    norm_num
  have hs : buffers_stale 44100 testProfile initialBuffers = true := by
    simp only [buffers_stale, hc]
    decide
  refine ⟨hs, hc, ?_⟩
  simp only [update_buffers, hs, if_true]
  rfl

/-- Claim C4: the resize check is not idempotent.  With unchanged mix rate
44100 and unchanged profile, the staleness comparison still reports stale
after a first `update_buffers` run has reallocated (the reallocated ring has
length 0, not the required 2823), so the second run reallocates again. -/
theorem update_buffers_not_idempotent :
    buffers_stale 44100 testProfile initialBuffers = true ∧
    buffers_stale 44100 testProfile
      (update_buffers 44100 testProfile initialBuffers) = true := by
  have hc : input_sample_count 44100 testProfile = 2823 := by
    norm_num [input_sample_count, testProfile]
    rw [Int.ceil_eq_iff]
    norm_num
  have hs : buffers_stale 44100 testProfile initialBuffers = true := by
    simp only [buffers_stale, hc]
    decide
  have hu : update_buffers 44100 testProfile initialBuffers = initialBuffers := by
    simp only [update_buffers, hs, if_true]
    rfl
  exact ⟨hs, by rw [hu]; exact hs⟩

/-- Claim C10: `update_phonemes` pre-increments its running index before each
write, so on a correctly sized scratch buffer (one calibrated vowel, 12
reference values, scratch length 12) the final write indexes `phonemes[12]`
out of bounds and panics (`none`); and on an oversized buffer the values land
at positions 1.. instead of 0.. — the first flattened value is written to
position 1 and position 0 is never written. -/
theorem update_phonemes_off_by_one :
    update_phonemes [⟨List.replicate 12 1⟩] (List.replicate 12 0) = none ∧
    update_phonemes [⟨[5]⟩] [0, 0] = some [0, 5] := by
  constructor <;> decide

/-- Claim C7: a negative vowel index is silently rejected by
`request_calibration`: the queue is unchanged (nothing is enqueued and there
is no error value to surface), the next tick's calibration step behaves
exactly as if the request had never been made, and from an empty queue the
profile after the rejected request plus the tick's calibration step is the
profile before. -/
theorem request_calibration_negative_noop (idx : ℤ) (h : idx < 0)
    (queue : List ℤ) (p : Profile) (mfcc : List ℚ) :
    request_calibration queue idx = queue ∧
    update_calibration p mfcc (request_calibration queue idx) =
      update_calibration p mfcc queue ∧
    (update_calibration p mfcc (request_calibration [] idx)).1 = p := by
  have hq : ∀ q : List ℤ, request_calibration q idx = q := fun q => by
    simp [request_calibration, h]
  refine ⟨hq queue, by rw [hq queue], ?_⟩
  rw [hq []]
  rfl

/-- Witness for C7: the concrete index `-1` against `testProfile`. -/
theorem request_calibration_negative_noop_witness :
    request_calibration [] (-1) = [] ∧
    (update_calibration testProfile [3] (request_calibration [] (-1))).1 =
      testProfile :=
  ⟨(request_calibration_negative_noop (-1) (by decide) [] testProfile [3]).1,
   (request_calibration_negative_noop (-1) (by decide) [] testProfile [3]).2.2⟩

/-- Lemma: `Profile.update_mfcc` never changes the number of calibrated vowels. -/
theorem update_mfcc_mfccs_length (p : Profile) (u : ℕ) (m : List ℚ)
    (a : Bool) : (p.update_mfcc u m a).mfccs.length = p.mfccs.length := by
  unfold Profile.update_mfcc
  split <;> simp

/-- Reading vowel `v` after an accepted calibration write to vowel `u`:
the slot holds the sample exactly when `u = v` (in-range), and is untouched
otherwise. -/
theorem update_mfcc_getD (p : Profile) (u v : ℕ) (m : List ℚ)
    (hv : v < p.mfccs.length) :
    (p.update_mfcc u m true).mfccs.getD v ⟨[]⟩ =
      if u = v then (⟨m⟩ : MfccCalibrationData)
      else p.mfccs.getD v ⟨[]⟩ := by
  unfold Profile.update_mfcc
  by_cases hu : u < p.mfccs.length
  · simp only [true_and, hu, if_true]
    rcases eq_or_ne u v with rfl | huv
    · simp [List.getD_eq_getElem?_getD, List.getElem?_set, hv]
    · simp [List.getD_eq_getElem?_getD, List.getElem?_set, huv]
  · have huv : u ≠ v := fun hh => hu (hh ▸ hv)
    simp [hu, huv]

/-- The calibration drain preserves the number of calibrated vowels. -/
theorem update_calibration_mfccs_length (mfcc : List ℚ) (queue : List ℤ) :
    ∀ p : Profile,
      (update_calibration p mfcc queue).1.mfccs.length = p.mfccs.length := by
  induction queue with
  | nil => intro p; rfl
  | cons i rest ih =>
    intro p
    have := ih (p.update_mfcc (usizeOfI64 i) mfcc true)
    simpa [update_calibration, List.foldl_cons,
      update_mfcc_mfccs_length] using this

/-- The final per-vowel content of the calibration drain: an in-range vowel's
reference vector is the live MFCC sample exactly when some queued request
targets it. -/
theorem update_calibration_getD (mfcc : List ℚ) (queue : List ℤ) :
    ∀ (p : Profile) (v : ℕ), v < p.mfccs.length →
      (update_calibration p mfcc queue).1.mfccs.getD v ⟨[]⟩ =
        if queue.any (fun i => usizeOfI64 i == v) then
          (⟨mfcc⟩ : MfccCalibrationData)
        else p.mfccs.getD v ⟨[]⟩ := by
  induction queue with
  | nil => intro p v _; simp [update_calibration]
  | cons i rest ih =>
    intro p v hv
    have hstep : (update_calibration p mfcc (i :: rest)).1 =
        (update_calibration (p.update_mfcc (usizeOfI64 i) mfcc true) mfcc
          rest).1 := by
      simp [update_calibration, List.foldl_cons]
    have hv' : v < (p.update_mfcc (usizeOfI64 i) mfcc true).mfccs.length := by
      rwa [update_mfcc_mfccs_length]
    rw [hstep, ih _ v hv', update_mfcc_getD p _ v mfcc hv, List.any_cons]
    by_cases hr : (rest.any fun j => usizeOfI64 j == v) = true
    · simp [hr]
    · by_cases hi : usizeOfI64 i = v
      · simp [hr, hi]
      · simp [hr, hi]

/-- Claim C8: on a tick, `update_calibration` drains every queued request in
queue (FIFO) order against the one current live MFCC vector and leaves the
queue empty.  The final reference vector of every in-range vowel `v` is the
live MFCC sample exactly when some request in the queue targets `v`; since
every request in the cycle applies that same live sample, the value written by
the later of two requests for the same vowel is the final reference value
(last-write-wins). -/
theorem update_calibration_drains_fifo (p : Profile) (mfcc : List ℚ)
    (queue : List ℤ) :
    (update_calibration p mfcc queue).2 = [] ∧
    (update_calibration p mfcc queue).1.mfccs.length = p.mfccs.length ∧
    ∀ v : ℕ, v < p.mfccs.length →
      (update_calibration p mfcc queue).1.mfccs.getD v ⟨[]⟩ =
        if queue.any (fun i => usizeOfI64 i == v) then
          (⟨mfcc⟩ : MfccCalibrationData)
        else p.mfccs.getD v ⟨[]⟩ :=
  ⟨rfl, update_calibration_mfccs_length mfcc queue p,
   update_calibration_getD mfcc queue p⟩

/-- A two-vowel profile used as concrete input for the calibration drain. -/
def twoVowelProfile : Profile :=
  { mfccs := [⟨[1]⟩, ⟨[2]⟩], min_volume := -4, max_volume := -2,
    target_sample_rate := 16000, sample_count := 1024,
    mel_filter_bank_channels := 12 }

/-- Witness for C8: two requests for vowel 1 in one cycle against live MFCC
`[7]`; the queue ends empty and vowel 1's reference is `[7]`. -/
theorem update_calibration_drains_fifo_witness :
    (update_calibration twoVowelProfile [7] [1, 1]).2 = [] ∧
    (update_calibration twoVowelProfile [7] [1, 1]).1.mfccs.getD 1 ⟨[]⟩ =
      ⟨[7]⟩ := by
  refine ⟨(update_calibration_drains_fifo twoVowelProfile [7] [1, 1]).1, ?_⟩
  have h := (update_calibration_drains_fifo twoVowelProfile [7] [1, 1]).2.2 1
    (by decide)
  rw [h]
  decide

/-- The source write loop equals the spec's fold of the per-sample cursor
advance over the selected (strided) samples, from any starting offset. -/
theorem capture_loop_eq_spec (raw : List ℚ) (index : ℕ) (input : List ℚ)
    (channels i : ℕ) :
    capture_loop raw index input channels i =
      capture_spec raw index (strided_samples input channels i) := by
  induction raw, index, input, channels, i using capture_loop.induct with
  | case1 raw index input channels i h =>
    rw [capture_loop, strided_samples, dif_pos h, dif_pos h]
    rfl
  | case2 raw index input channels i h idx ih =>
    rw [capture_loop, strided_samples, dif_neg h, dif_neg h]
    show capture_loop (raw.set idx (input.getD i 0)) idx input channels
      (i + channels) = _
    rw [ih]
    simp only [capture_spec, List.foldl_cons]
    rfl

/-- Claim C6: for every capture state, input buffer and channel stride ≥ 1:
when the ring buffer has capacity 0 the call returns the state and the input
unchanged (a no-op mutating nothing); otherwise the ring and write cursor
after the call are exactly the spec contract's fold — advance the cursor to
`(index + 1) mod capacity`, then overwrite that slot — over the samples at
offsets 0, stride, 2·stride, … of the input, and the gain field is
untouched. -/
theorem on_data_received_matches_contract (s : CaptureState) (input : List ℚ)
    (channels : ℕ) (hch : 1 ≤ channels) :
    (s.raw_input_data = [] → on_data_received s input channels = (s, input)) ∧
    (s.raw_input_data ≠ [] →
      ((on_data_received s input channels).1.raw_input_data,
          (on_data_received s input channels).1.index) =
        capture_spec s.raw_input_data (s.index % s.raw_input_data.length)
          (strided_samples input channels 0) ∧
      (on_data_received s input channels).1.output_sound_gain =
        s.output_sound_gain) := by
  constructor
  · intro h0
    simp [on_data_received, h0]
  · intro hne
    have hlen : ¬ s.raw_input_data.length = 0 := by
      simpa [List.length_eq_zero] using hne
    rw [on_data_received, if_neg hlen]
    refine ⟨?_, rfl⟩
    show ((capture_loop s.raw_input_data (s.index % s.raw_input_data.length)
        input channels 0).1,
      (capture_loop s.raw_input_data (s.index % s.raw_input_data.length)
        input channels 0).2) = _
    rw [capture_loop_eq_spec]

/-- Witness for C6: ring `[0,0,0]` with cursor 5, input `[10,20,30,40]` at
stride 2; and the capacity-0 no-op on the empty ring. -/
theorem on_data_received_matches_contract_witness :
    ((on_data_received ⟨[0, 0, 0], 5, 1⟩ [10, 20, 30, 40] 2).1.raw_input_data,
        (on_data_received ⟨[0, 0, 0], 5, 1⟩ [10, 20, 30, 40] 2).1.index) =
      capture_spec [0, 0, 0] (5 % 3) (strided_samples [10, 20, 30, 40] 2 0) ∧
    on_data_received ⟨[], 5, 1⟩ [10, 20, 30, 40] 2 =
      (⟨[], 5, 1⟩, [10, 20, 30, 40]) :=
  ⟨((on_data_received_matches_contract ⟨[0, 0, 0], 5, 1⟩ [10, 20, 30, 40] 2
      (by decide)).2 (by decide)).1,
   (on_data_received_matches_contract ⟨[], 5, 1⟩ [10, 20, 30, 40] 2
      (by decide)).1 rfl⟩
